import Mathlib

/-!
Verification of the CyberAsio backend (cpp-backend/src) against its
natural-language specification.  The C++ sources are shallowly embedded:
std::string values become lists of characters, C++ int becomes Int,
double and float become Rat, std::map<std::string, std::string> becomes an
association list with unique keys, and the nondeterministic inputs of the
metrics producer (the uniform random draws and the wall-clock sinusoid
values) become explicit functional arguments constrained by hypotheses.
-/

set_option maxRecDepth 8000
set_option maxHeartbeats 1000000

namespace CyberAsio

/-- Characters of a C++ std::string, modelled as a list of characters. -/
abbrev Str : Type := List Char

/-- Character data of a Lean string literal, used to transcribe C++ string
literals into the list-of-characters model. -/
def str (s : String) : Str := s.data

/-! ## Audio engine (audio_engine.h / audio_engine.cpp) -/

/-- AudioConfig from audio_engine.h; every field is a C++ int. -/
structure AudioConfig where
  sample_rate : Int := 48000
  buffer_size : Int := 256
  bit_depth : Int := 24
  channels : Int := 2
deriving Repr, DecidableEq

/-- AudioMetrics from audio_engine.h; the doubles and the float spectrum
entries are modelled as rationals. -/
structure AudioMetrics where
  input_latency : Rat := 0
  output_latency : Rat := 0
  total_latency : Rat := 0
  spectrum_data : List Rat := []
  is_playing : Bool := false
deriving Repr, DecidableEq

/-- The state of an AudioEngine object (audio_engine.h private fields).
The audio buffer is represented by its length, the only aspect the
embedded operations inspect. -/
structure AudioEngineState where
  config : AudioConfig := {}
  initialized : Bool := false
  playing : Bool := false
  playback_position : Nat := 0
  audio_buffer_len : Nat := 0
  metrics : AudioMetrics := {}

/-- AudioEngine::calculateLatency: buffer_time_ms = buffer_size / sample_rate
* 1000; input and output latency are both set to it and the total to their
sum. -/
def calculateLatency (st : AudioEngineState) : AudioEngineState :=
  let buffer_time_ms : Rat := ((st.config.buffer_size : Rat) / (st.config.sample_rate : Rat)) * 1000
  { st with metrics := { st.metrics with
      input_latency := buffer_time_ms
      output_latency := buffer_time_ms
      total_latency := buffer_time_ms + buffer_time_ms } }

/-- Per-bin base level in AudioEngine::generateSpectrumData:
max(0.1, 1 - i/32). -/
def baseLevel (i : Nat) : Rat := max (1/10) (1 - (i : Rat) / 32)

/-- Per-bin time factor in AudioEngine::generateSpectrumData:
0.5 + 0.5 * sin(time_ms/100 + i*0.5); the sine value is supplied as an
input of the model. -/
def timeFactor (sine : Rat) : Rat := 1/2 + 1/2 * sine

/-- AudioEngine::generateSpectrumData.  The random draw for bin i (uniform
in [0.1, 1.0)) is r i, and the sine evaluated for bin i is sine i; both are
nondeterministic inputs of the source, passed here as arguments.  When
playing, bin i is base_level * random_factor * time_factor; when not
playing, all 32 bins are set to 0.1. -/
def generateSpectrumData (r sine : Nat → Rat) (st : AudioEngineState) : AudioEngineState :=
  if st.playing then
    { st with metrics := { st.metrics with
        spectrum_data := (List.range 32).map (fun i => baseLevel i * r i * timeFactor (sine i)) } }
  else
    { st with metrics := { st.metrics with
        spectrum_data := List.replicate 32 (1/10) } }

/-- AudioEngine::processAudioBuffer: a no-op unless playing with a nonempty
buffer; otherwise advances the playback position by 50 ms worth of samples
(wrapping to 0 at the end of the buffer) and marks the metrics playing. -/
def processAudioBuffer (st : AudioEngineState) : AudioEngineState :=
  if st.playing = false ∨ st.audio_buffer_len = 0 then st
  else
    let samples_per_update : Nat := ((st.config.sample_rate * 50) / 1000).toNat
    let new_pos := st.playback_position + samples_per_update
    { st with
        playback_position := if new_pos ≥ st.audio_buffer_len then 0 else new_pos
        metrics := { st.metrics with is_playing := true } }

/-- The nondeterministic inputs consumed by one 50 ms update of
AudioEngine::audioThreadFunction: the random draws and the sine values of
generateSpectrumData. -/
structure TickInput where
  r : Nat → Rat
  sine : Nat → Rat

/-- The random draws lie in the support [0.1, 1.0) of
uniform_real_distribution(0.1f, 1.0f) and the sine values lie in [-1, 1]. -/
def ValidTickInput (inp : TickInput) : Prop :=
  ∀ i, 1/10 ≤ inp.r i ∧ inp.r i ≤ 1 ∧ -1 ≤ inp.sine i ∧ inp.sine i ≤ 1

/-- One 50 ms update of AudioEngine::audioThreadFunction:
processAudioBuffer followed by generateSpectrumData. -/
def tick (inp : TickInput) (st : AudioEngineState) : AudioEngineState :=
  generateSpectrumData inp.r inp.sine (processAudioBuffer st)

/-- A sequence of updates of the metrics producer. -/
def runTicks : List TickInput → AudioEngineState → AudioEngineState
  | [], st => st
  | inp :: rest, st => runTicks rest (tick inp st)

/-- AudioEngine::stop: clears the playing flag and position and resets the
spectrum to 32 zero bins. -/
def AudioEngine.stop (st : AudioEngineState) : AudioEngineState :=
  { st with
      playing := false
      playback_position := 0
      metrics := { st.metrics with
        spectrum_data := List.replicate 32 0
        is_playing := false } }

/-! ## Configuration manager (config_manager.h / config_manager.cpp) -/

/-- SystemConfig from config_manager.h. -/
structure SystemConfig where
  audio : AudioConfig := {}
  active_device_id : Int := -1
  current_audio_file : Str := []
  auto_save : Bool := true
  config_file_path : Str := str "config.json"

/-- The state of a ConfigManager object: the stored system configuration
and the device profiles. -/
structure CMState where
  system_config : SystemConfig := {}
  device_profiles : List (Int × AudioConfig) := []

/-- ConfigManager::isValidSampleRate: membership in the fixed list of
valid rates. -/
def isValidSampleRate (sample_rate : Int) : Bool :=
  [(44100 : Int), 48000, 88200, 96000, 192000].contains sample_rate

/-- ConfigManager::isValidBufferSize: between 32 and 2048 and a power of
two, tested with the bit trick buffer_size & (buffer_size - 1) == 0. -/
def isValidBufferSize (buffer_size : Int) : Bool :=
  decide (32 ≤ buffer_size) && decide (buffer_size ≤ 2048) &&
  (Int.land buffer_size (buffer_size - 1) == 0)

/-- ConfigManager::isValidBitDepth. -/
def isValidBitDepth (bit_depth : Int) : Bool :=
  bit_depth == 16 || bit_depth == 24 || bit_depth == 32

/-- ConfigManager::validateAudioConfig. -/
def validateAudioConfig (config : AudioConfig) : Bool :=
  isValidSampleRate config.sample_rate &&
  isValidBufferSize config.buffer_size &&
  isValidBitDepth config.bit_depth &&
  (decide (0 < config.channels) && decide (config.channels ≤ 8))

/-- ConfigManager::setAudioConfig: validates, and only on success stores
the new audio configuration; returns the C++ bool result together with the
resulting manager state. -/
def setAudioConfig (config : AudioConfig) (s : CMState) : Bool × CMState :=
  if validateAudioConfig config then
    (true, { s with system_config := { s.system_config with audio := config } })
  else
    (false, s)

/-- Audio-configuration validity exactly as the claim words it: sample rate
in the five-element list, buffer size a power of two between 32 and 2048,
bit depth 16, 24 or 32, and channel count between 1 and 8.  Stated from
the claim, to be compared with the validation the code performs. -/
def SpecValidAudioConfig (config : AudioConfig) : Prop :=
  config.sample_rate ∈ ([44100, 48000, 88200, 96000, 192000] : List Int) ∧
  ((∃ k : Nat, config.buffer_size = 2 ^ k) ∧ 32 ≤ config.buffer_size ∧ config.buffer_size ≤ 2048) ∧
  config.bit_depth ∈ ([16, 24, 32] : List Int) ∧
  (1 ≤ config.channels ∧ config.channels ≤ 8)

/-! ## Device manager (device_manager.h / device_manager.cpp) -/

/-- DeviceType from device_manager.h. -/
inductive DeviceType
  | WDM
  | KS
  | WASAPI
  | Asio
deriving Repr, DecidableEq

/-- DeviceStatus from device_manager.h. -/
inductive DeviceStatus
  | Active
  | Inactive
  | Disabled
  | Error
deriving Repr, DecidableEq

/-- AudioDevice from device_manager.h. -/
structure AudioDevice where
  id : Int
  name : Str
  type : DeviceType
  status : DeviceStatus
  max_sample_rate : Int := 0
  min_buffer_size : Int := 0
  max_buffer_size : Int := 0
  supported_sample_rates : List Int := []
  supported_bit_depths : List Int := []
  is_input : Bool := false
  is_output : Bool := false

/-- deviceTypeToString from device_manager.cpp. -/
def deviceTypeToString : DeviceType → Str
  | .WDM => str "WDM"
  | .KS => str "KS"
  | .WASAPI => str "WASAPI"
  | .Asio => str "ASIO"

/-- deviceStatusToString from device_manager.cpp. -/
def deviceStatusToString : DeviceStatus → Str
  | .Active => str "Active"
  | .Inactive => str "Inactive"
  | .Disabled => str "Disabled"
  | .Error => str "Error"

/-! ## Web server (webserver.h / webserver.cpp) -/

/-- Decimal digits of a natural number, as printed by operator<<. -/
def natToStr (n : Nat) : Str := Nat.toDigits 10 n

/-- Decimal rendering of a C++ int, as printed by operator<<. -/
def intToStr (i : Int) : Str :=
  if i < 0 then '-' :: natToStr (-i).toNat else natToStr i.toNat

/-- Request parameters: the std::map<std::string, std::string> of query
parameters, modelled as an association list whose keys are kept unique by
the insertion operation below. -/
abbrev Params : Type := List (Str × Str)

/-- Assignment params[key] = value of std::map: overwrite the entry when
the key is present, append it otherwise. -/
def mapInsert (key value : Str) : Params → Params
  | [] => [(key, value)]
  | (k, v) :: rest =>
    if k == key then (key, value) :: rest else (k, v) :: mapInsert key value rest

/-- Lookup in the parameter map. -/
def lookupP (key : Str) : Params → Option Str
  | [] => none
  | (k, v) :: rest => if k == key then some v else lookupP key rest

/-- A character matched by [^&=] in the query regex of
WebServer::handleClient. -/
def isQChar (c : Char) : Bool := !(c == '&') && !(c == '=')

/-- Worker for findMatches.  The fuel argument only forces structural
recursion; every recursive call consumes at least one character of the
string, so fuel equal to the string length (as findMatches passes) is
never exhausted. -/
def findMatchesAux : Nat → Str → List (Str × Str)
  | 0, _ => []
  | _ + 1, [] => []
  | fuel + 1, c :: rest =>
    if isQChar c then
      match rest.dropWhile isQChar with
      | '=' :: rest2 =>
        (c :: rest.takeWhile isQChar, rest2.takeWhile isQChar) ::
          findMatchesAux fuel (rest2.dropWhile isQChar)
      | other => findMatchesAux fuel other
    else
      findMatchesAux fuel rest

/-- The successive matches of the regex ([^&=]+)=([^&=]*) over the query
string, in the order std::sregex_iterator produces them: leftmost matches
with greedy runs of [^&=] characters, the search resuming after each
match. -/
def findMatches (query : Str) : List (Str × Str) :=
  findMatchesAux query.length query

/-- The parameter map built from the query string by
WebServer::handleClient: for each regex match, params[key] = value. -/
def parseQuery (query : Str) : Params :=
  (findMatches query).foldl (fun m kv => mapInsert kv.1 kv.2 m) []

/-- Index of the first occurrence of a character, as std::string::find. -/
def findChar (c : Char) : Str → Option Nat
  | [] => none
  | a :: rest => if a == c then some 0 else (findChar c rest).map (· + 1)

/-- The request-target processing of WebServer::handleClient: the path is
cut at the first question mark and the remainder is parsed into the
parameter map; without a question mark the map stays empty. -/
def parseTarget (raw_path : Str) : Str × Params :=
  match findChar '?' raw_path with
  | none => (raw_path, [])
  | some query_pos =>
    (raw_path.take query_pos, parseQuery (raw_path.drop (query_pos + 1)))

/-- A registered route of WebServer: method, path and handler. -/
structure Route where
  method : Str
  path : Str
  handler : Params → Str

/-- The state of a WebServer object.  The collaborators injected through
setDeviceManager, setConfigManager and setAudioEngine are optional; the
device manager is represented by the device list its getDevices returns. -/
structure ServerState where
  port : Int := 7788
  running : Bool := false
  static_directory : Str := []
  audio_engine : Option AudioEngineState := none
  device_manager : Option (List AudioDevice) := none
  config_manager : Option CMState := none

/-- WebServer::handleDevicesAPI. -/
def handleDevicesAPI (s : ServerState) (_params : Params) : Str :=
  match s.device_manager with
  | none => str "\x7b\"error\": \"Device manager not available\"\x7d"
  | some devices =>
    str "\x7b\"devices\": [" ++
    (List.intersperse (str ",") (devices.map (fun device =>
      str "\x7b\"id\": " ++ intToStr device.id ++
      str ", \"name\": \"" ++ device.name ++ str "\"" ++
      str ", \"type\": \"" ++ deviceTypeToString device.type ++ str "\"" ++
      str ", \"status\": \"" ++ deviceStatusToString device.status ++ str "\"" ++
      str "\x7d"))).flatten ++
    str "]\x7d"

/-- WebServer::handleConfigAPI. -/
def handleConfigAPI (s : ServerState) (_params : Params) : Str :=
  match s.config_manager with
  | none => str "\x7b\"error\": \"Config manager not available\"\x7d"
  | some cm =>
    let config := cm.system_config.audio
    str "\x7b\"config\": \x7b" ++
    str "\"sample_rate\": " ++ intToStr config.sample_rate ++
    str ", \"buffer_size\": " ++ intToStr config.buffer_size ++
    str ", \"bit_depth\": " ++ intToStr config.bit_depth ++
    str ", \"channels\": " ++ intToStr config.channels ++
    str "\x7d\x7d"

/-- WebServer::handleStatusAPI. -/
def handleStatusAPI (s : ServerState) (_params : Params) : Str :=
  str "\x7b\"status\": \x7b" ++
  str "\"server\": \"online\"" ++
  str ", \"audio_engine\": \"" ++
  (match s.audio_engine with
   | some engine => if engine.initialized then str "online" else str "offline"
   | none => str "offline") ++ str "\"" ++
  str ", \"device_manager\": \"" ++
  (if s.device_manager.isSome then str "online" else str "offline") ++ str "\"" ++
  str ", \"config_manager\": \"" ++
  (if s.config_manager.isSome then str "online" else str "offline") ++ str "\"" ++
  str "\x7d\x7d"

/-- WebServer::handleAudioAPI. -/
def handleAudioAPI (s : ServerState) (_params : Params) : Str :=
  match s.audio_engine with
  | none => str "\x7b\"error\": \"Audio engine not available\"\x7d"
  | some _ => str "\x7b\"result\": \"success\", \"message\": \"Audio command processed\"\x7d"

/-- WebServer::setupRoutes: the four routes registered in the constructor,
in registration order. -/
def setupRoutes (s : ServerState) : List Route :=
  [⟨str "GET", str "/api/devices", handleDevicesAPI s⟩,
   ⟨str "GET", str "/api/config", handleConfigAPI s⟩,
   ⟨str "GET", str "/api/status", handleStatusAPI s⟩,
   ⟨str "POST", str "/api/audio/play", handleAudioAPI s⟩]

/-- The route scan of WebServer::handleRequest: first route whose method
and path both compare equal to the request. -/
def findRoute (routes : List Route) (method path : Str) : Option Route :=
  routes.find? (fun route => route.method == method && route.path == path)

/-- Whether pat occurs at the very front of s (character-wise equality). -/
def headMatch : Str → Str → Bool
  | [], _ => true
  | _ :: _, [] => false
  | a :: pat, b :: s => a == b && headMatch pat s

/-- Index of the first occurrence of pat inside s, as std::string::find of
a pattern string. -/
def findSub (pat : Str) : Str → Option Nat
  | [] => if headMatch pat [] then some 0 else none
  | c :: rest =>
    if headMatch pat (c :: rest) then some 0 else (findSub pat rest).map (· + 1)

/-- The fixed CORS header block of WebServer::addCORSHeaders. -/
def corsHeaders : Str :=
  str "Access-Control-Allow-Origin: *\r\nAccess-Control-Allow-Methods: GET, POST, PUT, DELETE, OPTIONS\r\nAccess-Control-Allow-Headers: Content-Type, Authorization\r\n"

/-- The blank-line separator between HTTP headers and body. -/
def crlf2 : Str := str "\r\n\r\n"

/-- WebServer::addCORSHeaders: splice the CORS block in front of the first
blank line; leave the response alone when it has none. -/
def addCORSHeaders (response : Str) : Str :=
  match findSub crlf2 response with
  | some header_end =>
    response.take header_end ++ str "\r\n" ++ corsHeaders ++ response.drop header_end
  | none => response

/-- Index of the last dot in the path, as std::string::find_last_of. -/
def lastDotIdx : Str → Option Nat
  | [] => none
  | c :: rest =>
    match lastDotIdx rest with
    | some i => some (i + 1)
    | none => if c == '.' then some 0 else none

/-- WebServer::getContentType: extension-based lookup in the fixed table,
text/plain when there is no dot or the extension is unknown. -/
def getContentType (path : Str) : Str :=
  match lastDotIdx path with
  | none => str "text/plain"
  | some dot_pos =>
    let extension := path.drop dot_pos
    if extension == str ".html" then str "text/html"
    else if extension == str ".css" then str "text/css"
    else if extension == str ".js" then str "application/javascript"
    else if extension == str ".json" then str "application/json"
    else if extension == str ".png" then str "image/png"
    else if extension == str ".jpg" || extension == str ".jpeg" then str "image/jpeg"
    else if extension == str ".gif" then str "image/gif"
    else if extension == str ".svg" then str "image/svg+xml"
    else if extension == str ".ico" then str "image/x-icon"
    else if extension == str ".wav" then str "audio/wav"
    else if extension == str ".mp3" then str "audio/mpeg"
    else str "text/plain"

/-- WebServer::serveStaticFile: reads the file at static_directory ++ path.
The file system is an oracle from full path to contents; the empty string
stands for a file that cannot be opened, exactly the value the source
returns in that case. -/
def serveStaticFile (fileContent : Str → Str) (static_directory path : Str) : Str :=
  fileContent (static_directory ++ path)

/-- The 404 response of WebServer::handleRequest, CORS headers included. -/
def notFound404 : Str :=
  addCORSHeaders (str "HTTP/1.1 404 Not Found\r\nContent-Type: text/html\r\n\r\n<h1>404 Not Found</h1>")

/-- WebServer::handleRequest: first-match route dispatch, then static file
fallback for GET, then 404. -/
def handleRequest (routes : List Route) (fileContent : Str → Str) (static_directory : Str)
    (method path : Str) (params : Params) : Str :=
  match findRoute routes method path with
  | some route =>
    addCORSHeaders
      (str "HTTP/1.1 200 OK\r\nContent-Type: application/json\r\n\r\n" ++ route.handler params)
  | none =>
    if method == str "GET" then
      let file_path := if path == str "/" then str "/index.html" else path
      let content := serveStaticFile fileContent static_directory file_path
      if content.isEmpty then notFound404
      else
        addCORSHeaders
          (str "HTTP/1.1 200 OK\r\nContent-Type: " ++ getContentType file_path ++
            str "\r\n\r\n" ++ content)
    else notFound404

/-- WebServer::stop: clears the running flag and nothing else. -/
def WebServer.stop (s : ServerState) : ServerState := { s with running := false }

/-- The possible results of getContentType: the twelve MIME types of the
fixed table together with the text/plain fallback. -/
def contentTypeTable : List Str :=
  [str "text/plain", str "text/html", str "text/css", str "application/javascript",
   str "application/json", str "image/png", str "image/jpeg", str "image/gif",
   str "image/svg+xml", str "image/x-icon", str "audio/wav", str "audio/mpeg"]

/-! ## Bitwise characterization of the power-of-two test -/

theorem land_two_mul_pred (m : Nat) (hm : 0 < m) :
    (2 * m) &&& (2 * m - 1) = 2 * (m &&& (m - 1)) := by
  apply Nat.eq_of_testBit_eq
  intro i
  cases i with
  | zero =>
    simp only [Nat.testBit_land, Nat.testBit_zero]
    have h1 : 2 * m % 2 = 0 := by omega
    have h2 : 2 * (m &&& (m - 1)) % 2 = 0 := by omega
    simp [h1, h2]
  | succ i =>
    have h1 : 2 * m / 2 = m := by omega
    have h2 : (2 * m - 1) / 2 = m - 1 := by omega
    have h3 : 2 * (m &&& (m - 1)) / 2 = m &&& (m - 1) := by omega
    rw [Nat.testBit_land, Nat.testBit_succ, Nat.testBit_succ, Nat.testBit_succ,
        h1, h2, h3, Nat.testBit_land]

theorem land_odd_pred (m : Nat) : (2 * m + 1) &&& (2 * m) = 2 * m := by
  apply Nat.eq_of_testBit_eq
  intro i
  cases i with
  | zero =>
    simp only [Nat.testBit_land, Nat.testBit_zero]
    have h1 : 2 * m % 2 = 0 := by omega
    simp [h1]
  | succ i =>
    have h1 : (2 * m + 1) / 2 = m := by omega
    have h2 : 2 * m / 2 = m := by omega
    rw [Nat.testBit_land, Nat.testBit_succ, Nat.testBit_succ,
        h1, h2, Bool.and_self]

/-- For positive n, the bit trick n & (n - 1) == 0 recognizes exactly the
powers of two. -/
theorem land_pred_eq_zero_iff (n : Nat) (hn : 0 < n) :
    n &&& (n - 1) = 0 ↔ ∃ k, n = 2 ^ k := by
  induction n using Nat.strong_induction_on with
  | _ n ih =>
    rcases Nat.even_or_odd n with he | ho
    · obtain ⟨m, hm⟩ := he
      have hmn : n = 2 * m := by omega
      have hm0 : 0 < m := by omega
      subst hmn
      rw [land_two_mul_pred m hm0]
      constructor
      · intro h
        have hz : m &&& (m - 1) = 0 := by omega
        obtain ⟨k, hk⟩ := (ih m (by omega) hm0).mp hz
        exact ⟨k + 1, by rw [hk]; ring⟩
      · rintro ⟨k, hk⟩
        match k with
        | 0 => omega
        | k + 1 =>
          have hmk : m = 2 ^ k := by
            have : 2 * m = 2 * 2 ^ k := by rw [hk]; ring
            omega
          have hz : m &&& (m - 1) = 0 := (ih m (by omega) hm0).mpr ⟨k, hmk⟩
          omega
    · obtain ⟨m, hm⟩ := ho
      subst hm
      have hrw : (2 * m + 1) &&& (2 * m + 1 - 1) = 2 * m := by
        have h : 2 * m + 1 - 1 = 2 * m := by omega
        rw [h, land_odd_pred]
      rw [hrw]
      constructor
      · intro h
        exact ⟨0, by omega⟩
      · rintro ⟨k, hk⟩
        match k with
        | 0 => omega
        | k + 1 =>
          exfalso
          have : 2 * m + 1 = 2 * 2 ^ k := by rw [hk]; ring
          omega

/-- The buffer-size check of the code agrees with the wording of the spec:
a power of two lying between 32 and 2048. -/
theorem isValidBufferSize_iff (b : Int) :
    isValidBufferSize b = true ↔
      ((∃ k : Nat, b = 2 ^ k) ∧ 32 ≤ b ∧ b ≤ 2048) := by
  unfold isValidBufferSize
  simp only [Bool.and_eq_true, decide_eq_true_eq, beq_iff_eq]
  constructor
  · rintro ⟨⟨h32, h2048⟩, hland⟩
    refine ⟨?_, h32, h2048⟩
    set n := b.toNat with hn
    have hbn : b = (n : Int) := by omega
    rw [hbn] at hland
    have hb1 : (n : Int) - 1 = ((n - 1 : Nat) : Int) := by omega
    rw [hb1] at hland
    have hcast : Int.land (n : Int) ((n - 1 : Nat) : Int) = ((n &&& (n - 1) : Nat) : Int) := rfl
    rw [hcast] at hland
    have hland' : n &&& (n - 1) = 0 := by exact_mod_cast hland
    obtain ⟨k, hk⟩ := (land_pred_eq_zero_iff n (by omega)).mp hland'
    refine ⟨k, ?_⟩
    rw [hbn, hk]
    push_cast
    ring
  · rintro ⟨⟨k, hk⟩, h32, h2048⟩
    refine ⟨⟨h32, h2048⟩, ?_⟩
    have hk5 : 5 ≤ k := by
      by_contra hlt
      push_neg at hlt
      have h1 : (2 : Int) ^ k ≤ 2 ^ 4 := pow_le_pow_right₀ (by norm_num) (by omega)
      rw [← hk] at h1
      norm_num at h1
      omega
    have hk11 : k ≤ 11 := by
      by_contra hgt
      push_neg at hgt
      have h1 : (2 : Int) ^ 12 ≤ 2 ^ k := pow_le_pow_right₀ (by norm_num) (by omega)
      rw [← hk] at h1
      norm_num at h1
      omega
    interval_cases k <;> subst hk <;> decide

/-- The boolean membership test of List.contains agrees with list
membership. -/
theorem contains_int_iff (l : List Int) (x : Int) : l.contains x = true ↔ x ∈ l := by
  simp [List.contains]

/-- The whole audio-configuration validation of the code agrees with the
validity conditions as the claim words them. -/
theorem validateAudioConfig_iff (config : AudioConfig) :
    validateAudioConfig config = true ↔ SpecValidAudioConfig config := by
  unfold validateAudioConfig SpecValidAudioConfig isValidSampleRate isValidBitDepth
  simp only [Bool.and_eq_true, Bool.or_eq_true, beq_iff_eq, decide_eq_true_eq,
    contains_int_iff, isValidBufferSize_iff]
  constructor
  · rintro ⟨⟨⟨hsr, hbuf⟩, hbd⟩, hch1, hch2⟩
    refine ⟨hsr, hbuf, ?_, by omega, hch2⟩
    simp only [List.mem_cons, List.not_mem_nil, or_false]
    tauto
  · rintro ⟨hsr, hbuf, hbd, hch1, hch2⟩
    refine ⟨⟨⟨hsr, hbuf⟩, ?_⟩, by omega, hch2⟩
    simp only [List.mem_cons, List.not_mem_nil, or_false] at hbd
    tauto

/-- Claim C10: setAudioConfig is atomic with respect to validation.  When
the candidate configuration violates any of the four validity conditions,
it answers false and leaves the manager state untouched; when the
candidate satisfies all four, it answers true and stores exactly that
configuration. -/
theorem setAudioConfig_validates_atomically (config : AudioConfig) (s : CMState) :
    (¬ SpecValidAudioConfig config → setAudioConfig config s = (false, s)) ∧
    (SpecValidAudioConfig config →
      setAudioConfig config s =
        (true, { s with system_config := { s.system_config with audio := config } })) := by
  constructor
  · intro h
    have hv : validateAudioConfig config = false := by
      cases hvc : validateAudioConfig config
      · rfl
      · exact absurd ((validateAudioConfig_iff config).mp hvc) h
    unfold setAudioConfig
    simp [hv]
  · intro h
    have hv : validateAudioConfig config = true := (validateAudioConfig_iff config).mpr h
    unfold setAudioConfig
    simp [hv]

theorem setAudioConfig_validates_atomically_witness :
    setAudioConfig { sample_rate := 44000 } {} = (false, {}) ∧
    setAudioConfig {} {} = (true, { system_config := { audio := {} } }) := by
  constructor
  · refine (setAudioConfig_validates_atomically { sample_rate := 44000 } {}).1 ?_
    intro h
    exact absurd h.1 (by decide)
  · refine (setAudioConfig_validates_atomically {} {}).2 ?_
    exact ⟨by decide, ⟨⟨8, by norm_num⟩, by norm_num, by norm_num⟩, by decide, by norm_num, by norm_num⟩

/-! ## Claim C1: latency formula -/

/-- Claim C1: for every valid (sample rate, buffer size) pair held in the
configuration, the metrics after calculateLatency carry input latency
buffer_size / sample_rate * 1000, the same output latency, and a total of
exactly twice that value. -/
theorem latency_matches_buffer_formula (st : AudioEngineState)
    (hs : isValidSampleRate st.config.sample_rate = true)
    (hb : isValidBufferSize st.config.buffer_size = true) :
    (calculateLatency st).metrics.input_latency
        = (st.config.buffer_size : Rat) / (st.config.sample_rate : Rat) * 1000 ∧
    (calculateLatency st).metrics.output_latency
        = (st.config.buffer_size : Rat) / (st.config.sample_rate : Rat) * 1000 ∧
    (calculateLatency st).metrics.total_latency
        = 2 * ((st.config.buffer_size : Rat) / (st.config.sample_rate : Rat) * 1000) := by
  refine ⟨rfl, rfl, ?_⟩
  show (st.config.buffer_size : Rat) / (st.config.sample_rate : Rat) * 1000 +
      (st.config.buffer_size : Rat) / (st.config.sample_rate : Rat) * 1000 = _
  ring

theorem latency_matches_buffer_formula_witness :
    isValidSampleRate (AudioConfig.mk 48000 256 24 2).sample_rate = true ∧
    isValidBufferSize (AudioConfig.mk 48000 256 24 2).buffer_size = true ∧
    ((calculateLatency { config := AudioConfig.mk 48000 256 24 2 }).metrics.input_latency
        = ((256 : Int) : Rat) / ((48000 : Int) : Rat) * 1000 ∧
     (calculateLatency { config := AudioConfig.mk 48000 256 24 2 }).metrics.output_latency
        = ((256 : Int) : Rat) / ((48000 : Int) : Rat) * 1000 ∧
     (calculateLatency { config := AudioConfig.mk 48000 256 24 2 }).metrics.total_latency
        = 2 * (((256 : Int) : Rat) / ((48000 : Int) : Rat) * 1000)) :=
  ⟨by decide, by decide,
   latency_matches_buffer_formula { config := AudioConfig.mk 48000 256 24 2 } (by decide) (by decide)⟩

/-! ## Claim C3: inactive playback flattens the spectrum in one tick -/

/-- Claim C3: from any state with playback inactive, a single tick of the
metrics producer sets every one of the 32 spectrum bins to exactly 0.1. -/
theorem inactive_spectrum_flat (st : AudioEngineState) (inp : TickInput)
    (h : st.playing = false) :
    (tick inp st).metrics.spectrum_data = List.replicate 32 (1/10) := by
  unfold tick generateSpectrumData processAudioBuffer
  simp [h]

theorem inactive_spectrum_flat_witness :
    (AudioEngine.stop {}).playing = false ∧
    (tick ⟨fun _ => 1/2, fun _ => 0⟩ (AudioEngine.stop {})).metrics.spectrum_data
      = List.replicate 32 (1/10) :=
  ⟨rfl, inactive_spectrum_flat (AudioEngine.stop {}) ⟨fun _ => 1/2, fun _ => 0⟩ rfl⟩

/-! ## Claim C2: spectrum length and range invariant -/

theorem baseLevel_bounds (i : Nat) : 1/10 ≤ baseLevel i ∧ baseLevel i ≤ 1 := by
  unfold baseLevel
  refine ⟨le_max_left _ _, max_le (by norm_num) ?_⟩
  have h : (0 : Rat) ≤ (i : Rat) / 32 := by positivity
  linarith

theorem spectrum_bin_bounds (i : Nat) (r sine : Rat)
    (hr1 : 1/10 ≤ r) (hr2 : r ≤ 1) (hs1 : -1 ≤ sine) (hs2 : sine ≤ 1) :
    0 ≤ baseLevel i * r * timeFactor sine ∧ baseLevel i * r * timeFactor sine ≤ 1 := by
  obtain ⟨hb1, hb2⟩ := baseLevel_bounds i
  unfold timeFactor
  have ht0 : 0 ≤ 1/2 + 1/2 * sine := by linarith
  have ht1 : 1/2 + 1/2 * sine ≤ 1 := by linarith
  have ha0 : (0 : Rat) ≤ baseLevel i := by linarith
  have hr0 : (0 : Rat) ≤ r := by linarith
  constructor
  · exact mul_nonneg (mul_nonneg ha0 hr0) ht0
  · have h111 : baseLevel i * r * (1/2 + 1/2 * sine) ≤ 1 * 1 * 1 :=
      mul_le_mul (mul_le_mul hb2 hr2 hr0 (by norm_num)) ht1 ht0 (by norm_num)
    linarith

/-- After any single valid tick, the spectrum has 32 bins, all in [0,1]. -/
theorem tick_spectrum_ok (inp : TickInput) (st : AudioEngineState)
    (hv : ValidTickInput inp) :
    (tick inp st).metrics.spectrum_data.length = 32 ∧
    ∀ x ∈ (tick inp st).metrics.spectrum_data, 0 ≤ x ∧ x ≤ 1 := by
  unfold tick generateSpectrumData
  cases hp : (processAudioBuffer st).playing
  · simp only [hp, Bool.false_eq_true, if_false]
    constructor
    · simp
    · intro x hx
      have hx' : x = 1/10 := List.eq_of_mem_replicate hx
      subst hx'
      norm_num
  · simp only [hp, if_true]
    constructor
    · simp
    · intro x hx
      simp only [List.mem_map, List.mem_range] at hx
      obtain ⟨i, _, hix⟩ := hx
      subst hix
      obtain ⟨h1, h2, h3, h4⟩ := hv i
      exact spectrum_bin_bounds i (inp.r i) (inp.sine i) h1 h2 h3 h4

/-- Claim C2: after every tick of the metrics producer, in the playing and
the not-playing branch alike, the spectrum in the current metrics has
length exactly 32 and every bin lies in [0, 1]; this holds along every
nonempty tick sequence. -/
theorem spectrum_len32_and_in_unit_range (inputs : List TickInput) (st : AudioEngineState)
    (hne : inputs ≠ [])
    (hv : ∀ inp ∈ inputs, ValidTickInput inp) :
    (runTicks inputs st).metrics.spectrum_data.length = 32 ∧
    ∀ x ∈ (runTicks inputs st).metrics.spectrum_data, 0 ≤ x ∧ x ≤ 1 := by
  induction inputs generalizing st with
  | nil => exact absurd rfl hne
  | cons inp rest ih =>
    cases rest with
    | nil =>
      show (runTicks [] (tick inp st)).metrics.spectrum_data.length = 32 ∧ _
      exact tick_spectrum_ok inp st (hv inp (by simp))
    | cons inp2 rest2 =>
      show (runTicks (inp2 :: rest2) (tick inp st)).metrics.spectrum_data.length = 32 ∧ _
      exact ih (tick inp st) (by simp) (fun i hi => hv i (List.mem_cons_of_mem inp hi))

theorem spectrum_len32_and_in_unit_range_witness :
    ([⟨fun _ => 1/2, fun _ => 0⟩] : List TickInput) ≠ [] ∧
    (∀ inp ∈ ([⟨fun _ => 1/2, fun _ => 0⟩] : List TickInput), ValidTickInput inp) ∧
    ((runTicks [⟨fun _ => 1/2, fun _ => 0⟩] { playing := true }).metrics.spectrum_data.length = 32 ∧
     ∀ x ∈ (runTicks [⟨fun _ => 1/2, fun _ => 0⟩] { playing := true }).metrics.spectrum_data,
       0 ≤ x ∧ x ≤ 1) := by
  have hv : ∀ inp ∈ ([⟨fun _ => 1/2, fun _ => 0⟩] : List TickInput), ValidTickInput inp := by
    intro inp hinp
    simp only [List.mem_singleton] at hinp
    subst hinp
    intro i
    norm_num
  exact ⟨by simp, hv,
    spectrum_len32_and_in_unit_range [⟨fun _ => 1/2, fun _ => 0⟩] { playing := true } (by simp) hv⟩

/-! ## Substring machinery for the CORS splice -/

theorem headMatch_append (pat s t : Str) (h : headMatch pat s = true) :
    headMatch pat (s ++ t) = true := by
  induction pat generalizing s with
  | nil => rfl
  | cons a pat ih =>
    cases s with
    | nil => exact absurd h (by simp [headMatch])
    | cons b s2 =>
      simp only [headMatch, Bool.and_eq_true] at h
      simp only [List.cons_append, headMatch, Bool.and_eq_true]
      exact ⟨h.1, ih s2 h.2⟩

theorem headMatch_length (pat s : Str) (h : headMatch pat s = true) :
    pat.length ≤ s.length := by
  induction pat generalizing s with
  | nil => simp
  | cons a pat ih =>
    cases s with
    | nil => exact absurd h (by simp [headMatch])
    | cons b s2 =>
      simp only [headMatch, Bool.and_eq_true] at h
      have := ih s2 h.2
      simp only [List.length_cons]
      omega

theorem headMatch_of_append (pat s t : Str) (hl : pat.length ≤ s.length)
    (h : headMatch pat (s ++ t) = true) : headMatch pat s = true := by
  induction pat generalizing s with
  | nil => rfl
  | cons a pat ih =>
    cases s with
    | nil => simp at hl
    | cons b s2 =>
      simp only [List.cons_append, headMatch, Bool.and_eq_true] at h
      simp only [headMatch, Bool.and_eq_true]
      simp only [List.length_cons] at hl
      exact ⟨h.1, ih s2 (by omega) h.2⟩

theorem findSub_some (pat s : Str) (i : Nat) (h : findSub pat s = some i) :
    i + pat.length ≤ s.length ∧ headMatch pat (s.drop i) = true := by
  induction s generalizing i with
  | nil =>
    unfold findSub at h
    by_cases hm : headMatch pat [] = true
    · simp only [hm, if_true, Option.some_inj] at h
      subst h
      cases pat with
      | nil => exact ⟨by simp, rfl⟩
      | cons a pat2 => simp [headMatch] at hm
    · simp [hm] at h
  | cons c rest ih =>
    unfold findSub at h
    by_cases hm : headMatch pat (c :: rest) = true
    · simp only [hm, if_true, Option.some_inj] at h
      subst h
      exact ⟨by simpa using headMatch_length pat (c :: rest) hm, by simpa using hm⟩
    · simp only [hm, if_false] at h
      cases hfs : findSub pat rest with
      | none => rw [hfs] at h; simp at h
      | some j =>
        rw [hfs] at h
        simp at h
        obtain ⟨h1, h2⟩ := ih j hfs
        subst h
        refine ⟨by simp only [List.length_cons]; omega, ?_⟩
        simpa using h2

theorem findSub_append (pat s t : Str) (i : Nat) (h : findSub pat s = some i) :
    findSub pat (s ++ t) = some i := by
  induction s generalizing i with
  | nil =>
    unfold findSub at h
    by_cases hm : headMatch pat [] = true
    · simp only [hm, if_true, Option.some_inj] at h
      subst h
      have hp : pat = [] := by
        cases pat with
        | nil => rfl
        | cons a p => simp [headMatch] at hm
      subst hp
      cases t with
      | nil => rfl
      | cons c t2 => simp [findSub, headMatch]
    · simp [hm] at h
  | cons c rest ih =>
    unfold findSub at h
    by_cases hm : headMatch pat (c :: rest) = true
    · simp only [hm, if_true, Option.some_inj] at h
      subst h
      have hm2 : headMatch pat (c :: (rest ++ t)) = true := by
        have := headMatch_append pat (c :: rest) t hm
        simpa using this
      show findSub pat (c :: (rest ++ t)) = some 0
      unfold findSub
      simp [hm2]
    · simp only [hm, if_false] at h
      obtain ⟨j, hj, hij⟩ : ∃ j, findSub pat rest = some j ∧ j + 1 = i := by
        cases hfs : findSub pat rest with
        | none => rw [hfs] at h; simp at h
        | some j =>
          rw [hfs] at h
          simp at h
          exact ⟨j, rfl, by omega⟩
      have hb := findSub_some pat rest j hj
      have hm3 : ¬ headMatch pat (c :: (rest ++ t)) = true := by
        intro hcon
        have hl : pat.length ≤ (c :: rest).length := by
          simp only [List.length_cons]
          omega
        have : headMatch pat (c :: rest) = true := by
          refine headMatch_of_append pat (c :: rest) t hl ?_
          simpa using hcon
        exact hm this
      show findSub pat (c :: (rest ++ t)) = some i
      unfold findSub
      simp only [hm3, if_false]
      rw [ih j hj]
      simp [hij]

/-- Splicing the CORS block into a response made of a header part with a
known first blank line followed by an arbitrary body. -/
theorem addCORSHeaders_append (p b : Str) (i : Nat) (h : findSub crlf2 p = some i) :
    addCORSHeaders (p ++ b) =
      p.take i ++ str "\r\n" ++ corsHeaders ++ (p.drop i ++ b) := by
  have hb := (findSub_some crlf2 p i h).1
  have hi : i ≤ p.length := by
    have h4 : crlf2.length = 4 := rfl
    omega
  unfold addCORSHeaders
  rw [findSub_append crlf2 p b i h]
  show (p ++ b).take i ++ str "\r\n" ++ corsHeaders ++ (p ++ b).drop i = _
  rw [List.take_append_of_le_length hi, List.drop_append_of_le_length hi]

/-- getContentType only ever produces entries of the fixed table. -/
theorem getContentType_mem (path : Str) : getContentType path ∈ contentTypeTable := by
  unfold getContentType contentTypeTable
  cases lastDotIdx path with
  | none => simp
  | some i =>
    simp only
    split_ifs <;> decide

/-- For every content type of the table, the static header block has its
first blank line right after the content type, and no blank line appears
before the spliced CORS block ends. -/
theorem contentType_head_ok (ct : Str) (hct : ct ∈ contentTypeTable) :
    findSub crlf2 (str "HTTP/1.1 200 OK\r\nContent-Type: " ++ ct ++ crlf2) = some (31 + ct.length) ∧
    (str "HTTP/1.1 200 OK\r\nContent-Type: " ++ ct ++ crlf2).take (31 + ct.length)
      = str "HTTP/1.1 200 OK\r\nContent-Type: " ++ ct ∧
    (str "HTTP/1.1 200 OK\r\nContent-Type: " ++ ct ++ crlf2).drop (31 + ct.length) = crlf2 ∧
    findSub crlf2 (str "HTTP/1.1 200 OK\r\nContent-Type: " ++ ct ++ str "\r\n" ++ corsHeaders) = none := by
  fin_cases hct <;> exact ⟨by decide, by decide, by decide, by decide⟩

/-- The JSON route response after the CORS splice. -/
theorem addCORS_json (body : Str) :
    addCORSHeaders (str "HTTP/1.1 200 OK\r\nContent-Type: application/json\r\n\r\n" ++ body) =
      str "HTTP/1.1 200 OK\r\nContent-Type: application/json" ++ str "\r\n" ++ corsHeaders ++
        (crlf2 ++ body) := by
  have h47 : findSub crlf2 (str "HTTP/1.1 200 OK\r\nContent-Type: application/json\r\n\r\n")
      = some 47 := by decide
  rw [addCORSHeaders_append _ _ 47 h47]
  rw [show (str "HTTP/1.1 200 OK\r\nContent-Type: application/json\r\n\r\n").take 47
      = str "HTTP/1.1 200 OK\r\nContent-Type: application/json" from by decide]
  rw [show (str "HTTP/1.1 200 OK\r\nContent-Type: application/json\r\n\r\n").drop 47
      = crlf2 from by decide]

/-- The static-file response after the CORS splice. -/
theorem addCORS_static (ct content : Str) (hct : ct ∈ contentTypeTable) :
    addCORSHeaders (str "HTTP/1.1 200 OK\r\nContent-Type: " ++ ct ++ str "\r\n\r\n" ++ content) =
      (str "HTTP/1.1 200 OK\r\nContent-Type: " ++ ct) ++ str "\r\n" ++ corsHeaders ++
        (crlf2 ++ content) := by
  obtain ⟨hfind, htake, hdrop, -⟩ := contentType_head_ok ct hct
  have hp : str "HTTP/1.1 200 OK\r\nContent-Type: " ++ ct ++ str "\r\n\r\n" ++ content
      = (str "HTTP/1.1 200 OK\r\nContent-Type: " ++ ct ++ crlf2) ++ content := by
    simp only [crlf2, List.append_assoc]
  rw [hp, addCORSHeaders_append _ _ _ hfind, htake, hdrop]

/-- The 404 response, decomposed around the spliced CORS block. -/
theorem notFound404_decomp :
    notFound404 = str "HTTP/1.1 404 Not Found\r\nContent-Type: text/html" ++ str "\r\n" ++
      corsHeaders ++ (crlf2 ++ str "<h1>404 Not Found</h1>") := by decide

/-! ## Claim C6: every response carries the CORS block -/

/-- Claim C6: every response of handleRequest, from a route handler, the
static-file fallback or the 404 branch, decomposes as a header part, the
fixed CORS header block, the blank-line separator and the body, and no
blank line occurs before the end of the CORS block, so the block sits
after the status and header lines and before the body separator. -/
theorem responses_carry_cors (routes : List Route) (fileContent : Str → Str)
    (static_directory method path : Str) (params : Params) :
    ∃ head body,
      handleRequest routes fileContent static_directory method path params =
        head ++ str "\r\n" ++ corsHeaders ++ (crlf2 ++ body) ∧
      findSub crlf2 (head ++ str "\r\n" ++ corsHeaders) = none := by
  unfold handleRequest
  cases hfr : findRoute routes method path with
  | some route =>
    exact ⟨str "HTTP/1.1 200 OK\r\nContent-Type: application/json", route.handler params,
      addCORS_json (route.handler params), by decide⟩
  | none =>
    cases hm : method == str "GET" with
    | false =>
      simp only [hm, Bool.false_eq_true, if_false]
      exact ⟨str "HTTP/1.1 404 Not Found\r\nContent-Type: text/html",
        str "<h1>404 Not Found</h1>", notFound404_decomp, by decide⟩
    | true =>
      simp only [hm, if_true]
      cases hc : (serveStaticFile fileContent static_directory
          (if path == str "/" then str "/index.html" else path)).isEmpty with
      | true =>
        simp only [hc, if_true]
        exact ⟨str "HTTP/1.1 404 Not Found\r\nContent-Type: text/html",
          str "<h1>404 Not Found</h1>", notFound404_decomp, by decide⟩
      | false =>
        simp only [hc, Bool.false_eq_true, if_false]
        refine ⟨str "HTTP/1.1 200 OK\r\nContent-Type: " ++
            getContentType (if path == str "/" then str "/index.html" else path),
          serveStaticFile fileContent static_directory
            (if path == str "/" then str "/index.html" else path),
          addCORS_static _ _ (getContentType_mem _), ?_⟩
        obtain ⟨-, -, -, hnone⟩ := contentType_head_ok _
          (getContentType_mem (if path == str "/" then str "/index.html" else path))
        exact hnone

/-! ## Claim C5: unmatched GET with no static content gives the fixed 404 -/

/-- Claim C5: when no route matches a GET request and static file
resolution yields no content, handleRequest returns the fixed HTTP 404
response with the HTML body, whatever the supplied query parameters. -/
theorem unmatched_get_is_404 (routes : List Route) (fileContent : Str → Str)
    (static_directory path : Str) (params : Params)
    (hroute : findRoute routes (str "GET") path = none)
    (hfile : fileContent (static_directory ++
      (if path == str "/" then str "/index.html" else path)) = []) :
    handleRequest routes fileContent static_directory (str "GET") path params =
      str "HTTP/1.1 404 Not Found\r\nContent-Type: text/html\r\n" ++ corsHeaders ++
        str "\r\n\r\n<h1>404 Not Found</h1>" := by
  unfold handleRequest serveStaticFile
  simp only [hroute, beq_self_eq_true, if_true, hfile]
  rw [if_pos (show (List.isEmpty ([] : Str)) = true from rfl)]
  decide

theorem unmatched_get_is_404_witness :
    findRoute [] (str "GET") (str "/missing") = none ∧
    (fun _ : Str => ([] : Str)) (str "static" ++
      (if (str "/missing" : Str) == str "/" then str "/index.html" else str "/missing")) = [] ∧
    handleRequest [] (fun _ => []) (str "static") (str "GET") (str "/missing")
        [(str "x", str "1")] =
      str "HTTP/1.1 404 Not Found\r\nContent-Type: text/html\r\n" ++ corsHeaders ++
        str "\r\n\r\n<h1>404 Not Found</h1>" :=
  ⟨rfl, rfl,
    unmatched_get_is_404 [] (fun _ => []) (str "static") (str "/missing")
      [(str "x", str "1")] rfl rfl⟩

/-! ## Claim C4: exact route matching with the query string stripped -/

theorem findChar_none (c : Char) (p : Str) (h : c ∉ p) : findChar c p = none := by
  induction p with
  | nil => rfl
  | cons a rest ih =>
    simp only [List.mem_cons, not_or] at h
    have ha : (a == c) = false := by
      simp only [beq_eq_false_iff_ne]
      exact fun hc => h.1 hc.symm
    unfold findChar
    simp only [ha, Bool.false_eq_true, if_false]
    rw [ih h.2]
    rfl

theorem findChar_append (c : Char) (p q : Str) (h : c ∉ p) :
    findChar c (p ++ c :: q) = some p.length := by
  induction p with
  | nil => simp [findChar]
  | cons a rest ih =>
    simp only [List.mem_cons, not_or] at h
    have ha : (a == c) = false := by
      simp only [beq_eq_false_iff_ne]
      exact fun hc => h.1 hc.symm
    show findChar c (a :: (rest ++ c :: q)) = some (rest.length + 1)
    unfold findChar
    simp only [ha, Bool.false_eq_true, if_false]
    rw [ih (by simpa using h.2)]
    rfl

/-- A path without a question mark passes through unchanged, with an empty
parameter map. -/
theorem parseTarget_no_query (p : Str) (h : '?' ∉ p) : parseTarget p = (p, []) := by
  unfold parseTarget
  rw [findChar_none '?' p h]

/-- Appending a question mark and a query string leaves exactly the bare
path for matching and parses the query into the parameter map. -/
theorem parseTarget_strip (p q : Str) (h : '?' ∉ p) :
    parseTarget (p ++ '?' :: q) = (p, parseQuery q) := by
  unfold parseTarget
  rw [findChar_append '?' p q h]
  show ((p ++ '?' :: q).take p.length, parseQuery ((p ++ '?' :: q).drop (p.length + 1))) = _
  rw [List.take_left, List.drop_append 1]
  simp

/-- Claim C4: handleRequest matches routes by exact string equality on
method and path, the query string having been stripped by handleClient: a
path differing from every registered pair matches no route (in particular
GET /api/device does not match the default table), and appending a query
string to a path resolves to the same matched route as the bare path. -/
theorem route_matching_exact (routes : List Route) (method p q : Str)
    (hq : '?' ∉ p) :
    ((∀ route ∈ routes, ¬(route.method = method ∧ route.path = p)) →
      findRoute routes method p = none) ∧
    parseTarget (p ++ '?' :: q) = (p, parseQuery q) ∧
    findRoute routes method (parseTarget (p ++ '?' :: q)).1 =
      findRoute routes method (parseTarget p).1 ∧
    (∀ s : ServerState, findRoute (setupRoutes s) (str "GET") (str "/api/device") = none) := by
  refine ⟨?_, parseTarget_strip p q hq, ?_, ?_⟩
  · intro hnone
    unfold findRoute
    rw [List.find?_eq_none]
    intro route hr
    simp only [Bool.and_eq_true, beq_iff_eq, not_and]
    intro h1 h2
    exact hnone route hr ⟨h1, h2⟩
  · rw [parseTarget_strip p q hq, parseTarget_no_query p hq]
  · intro s
    rfl

theorem route_matching_exact_witness :
    ¬ '?' ∈ str "/api/status" ∧
    (((∀ route ∈ setupRoutes {}, ¬(route.method = str "GET" ∧ route.path = str "/api/status")) →
        findRoute (setupRoutes {}) (str "GET") (str "/api/status") = none) ∧
      parseTarget (str "/api/status" ++ '?' :: str "x=1") =
        (str "/api/status", parseQuery (str "x=1")) ∧
      findRoute (setupRoutes {}) (str "GET") (parseTarget (str "/api/status" ++ '?' :: str "x=1")).1 =
        findRoute (setupRoutes {}) (str "GET") (parseTarget (str "/api/status")).1 ∧
      (∀ s : ServerState, findRoute (setupRoutes s) (str "GET") (str "/api/device") = none)) :=
  ⟨by decide,
    route_matching_exact (setupRoutes {}) (str "GET") (str "/api/status") (str "x=1") (by decide)⟩

/-! ## Claim C7: missing collaborators still answer HTTP 200 -/

/-- Claim C7: when the collaborator a registered route needs is absent,
the dispatcher still wraps the JSON error body into the one fixed success
status line, HTTP/1.1 200 OK, for each of the three collaborator-dependent
routes; no missing collaborator ever produces a non-200 status. -/
theorem missing_collaborator_still_200 (s : ServerState) (fileContent : Str → Str)
    (static_directory : Str) (params : Params) :
    (s.device_manager = none →
      handleRequest (setupRoutes s) fileContent static_directory
          (str "GET") (str "/api/devices") params =
        str "HTTP/1.1 200 OK\r\nContent-Type: application/json\r\n" ++ corsHeaders ++
          str "\r\n\r\n\x7b\"error\": \"Device manager not available\"\x7d") ∧
    (s.config_manager = none →
      handleRequest (setupRoutes s) fileContent static_directory
          (str "GET") (str "/api/config") params =
        str "HTTP/1.1 200 OK\r\nContent-Type: application/json\r\n" ++ corsHeaders ++
          str "\r\n\r\n\x7b\"error\": \"Config manager not available\"\x7d") ∧
    (s.audio_engine = none →
      handleRequest (setupRoutes s) fileContent static_directory
          (str "POST") (str "/api/audio/play") params =
        str "HTTP/1.1 200 OK\r\nContent-Type: application/json\r\n" ++ corsHeaders ++
          str "\r\n\r\n\x7b\"error\": \"Audio engine not available\"\x7d") := by
  refine ⟨?_, ?_, ?_⟩
  · intro h
    unfold handleRequest
    rw [show findRoute (setupRoutes s) (str "GET") (str "/api/devices") =
        some ⟨str "GET", str "/api/devices", handleDevicesAPI s⟩ from rfl]
    show addCORSHeaders (str "HTTP/1.1 200 OK\r\nContent-Type: application/json\r\n\r\n" ++
      handleDevicesAPI s params) = _
    unfold handleDevicesAPI
    rw [h]
    decide
  · intro h
    unfold handleRequest
    rw [show findRoute (setupRoutes s) (str "GET") (str "/api/config") =
        some ⟨str "GET", str "/api/config", handleConfigAPI s⟩ from rfl]
    show addCORSHeaders (str "HTTP/1.1 200 OK\r\nContent-Type: application/json\r\n\r\n" ++
      handleConfigAPI s params) = _
    unfold handleConfigAPI
    rw [h]
    decide
  · intro h
    unfold handleRequest
    rw [show findRoute (setupRoutes s) (str "POST") (str "/api/audio/play") =
        some ⟨str "POST", str "/api/audio/play", handleAudioAPI s⟩ from rfl]
    show addCORSHeaders (str "HTTP/1.1 200 OK\r\nContent-Type: application/json\r\n\r\n" ++
      handleAudioAPI s params) = _
    unfold handleAudioAPI
    rw [h]
    decide

theorem missing_collaborator_still_200_witness :
    handleRequest (setupRoutes {}) (fun _ => []) [] (str "GET") (str "/api/devices") [] =
      str "HTTP/1.1 200 OK\r\nContent-Type: application/json\r\n" ++ corsHeaders ++
        str "\r\n\r\n\x7b\"error\": \"Device manager not available\"\x7d" ∧
    handleRequest (setupRoutes {}) (fun _ => []) [] (str "GET") (str "/api/config") [] =
      str "HTTP/1.1 200 OK\r\nContent-Type: application/json\r\n" ++ corsHeaders ++
        str "\r\n\r\n\x7b\"error\": \"Config manager not available\"\x7d" ∧
    handleRequest (setupRoutes {}) (fun _ => []) [] (str "POST") (str "/api/audio/play") [] =
      str "HTTP/1.1 200 OK\r\nContent-Type: application/json\r\n" ++ corsHeaders ++
        str "\r\n\r\n\x7b\"error\": \"Audio engine not available\"\x7d" :=
  ⟨(missing_collaborator_still_200 {} (fun _ => []) [] []).1 rfl,
   (missing_collaborator_still_200 {} (fun _ => []) [] []).2.1 rfl,
   (missing_collaborator_still_200 {} (fun _ => []) [] []).2.2 rfl⟩

/-! ## Claim C8: duplicate query parameters, last occurrence wins -/

theorem lookupP_mapInsert_self (k v : Str) (m : Params) :
    lookupP k (mapInsert k v m) = some v := by
  induction m with
  | nil => simp [mapInsert, lookupP]
  | cons kv rest ih =>
    obtain ⟨k2, v2⟩ := kv
    by_cases h : (k2 == k) = true
    · simp [mapInsert, h, lookupP]
    · simp only [mapInsert, h, Bool.false_eq_true, if_false]
      simp only [lookupP, h, Bool.false_eq_true, if_false]
      exact ih

theorem lookupP_mapInsert_ne (k k2 v : Str) (m : Params) (h : ¬ k2 = k) :
    lookupP k (mapInsert k2 v m) = lookupP k m := by
  have hb : (k2 == k) = false := by simp [h]
  induction m with
  | nil => simp [mapInsert, lookupP, hb]
  | cons kv rest ih =>
    obtain ⟨k3, v3⟩ := kv
    unfold mapInsert
    by_cases h3 : (k3 == k2) = true
    · rw [if_pos h3]
      have hk32 : k3 = k2 := by simpa using h3
      subst hk32
      simp only [lookupP, hb, Bool.false_eq_true, if_false]
    · rw [if_neg h3]
      by_cases h3k : (k3 == k) = true
      · simp only [lookupP, h3k, if_true]
      · simp only [lookupP, h3k, Bool.false_eq_true, if_false]
        exact ih

theorem map_fst_mapInsert (k v : Str) (m : Params) :
    (mapInsert k v m).map Prod.fst =
      if k ∈ m.map Prod.fst then m.map Prod.fst else m.map Prod.fst ++ [k] := by
  induction m with
  | nil => simp [mapInsert]
  | cons kv rest ih =>
    obtain ⟨k2, v2⟩ := kv
    by_cases h : (k2 == k) = true
    · have hk : k2 = k := by simpa using h
      subst hk
      simp [mapInsert, h]
    · have hk : ¬ k2 = k := by simpa using h
      simp only [mapInsert, h, Bool.false_eq_true, if_false, List.map_cons, ih]
      by_cases hm : k ∈ rest.map Prod.fst
      · rw [if_pos hm, if_pos (by simp [hm])]
      · have hnotin : ¬ k ∈ k2 :: rest.map Prod.fst := by
          simp only [List.mem_cons, not_or]
          exact ⟨fun hc => hk hc.symm, hm⟩
        rw [if_neg hm, if_neg hnotin, List.cons_append]

theorem nodup_keys_mapInsert (k v : Str) (m : Params)
    (h : (m.map Prod.fst).Nodup) : ((mapInsert k v m).map Prod.fst).Nodup := by
  rw [map_fst_mapInsert]
  by_cases hm : k ∈ m.map Prod.fst
  · rw [if_pos hm]
    exact h
  · rw [if_neg hm]
    simp [List.nodup_append, h, hm]

theorem nodup_keys_foldl (ms : List (Str × Str)) (acc : Params)
    (h : (acc.map Prod.fst).Nodup) :
    ((ms.foldl (fun m kv => mapInsert kv.1 kv.2 m) acc).map Prod.fst).Nodup := by
  induction ms generalizing acc with
  | nil => exact h
  | cons kv rest ih =>
    exact ih (mapInsert kv.1 kv.2 acc) (nodup_keys_mapInsert kv.1 kv.2 acc h)

theorem getLast?_cons_of_ne_nil {α : Type} (a : α) (l : List α) (h : l ≠ []) :
    (a :: l).getLast? = l.getLast? := by
  cases l with
  | nil => exact absurd rfl h
  | cons b l2 => exact List.getLast?_cons_cons

theorem getLast?_cons_ne_none {α : Type} (a : α) (l : List α) :
    (a :: l).getLast? ≠ none := by
  induction l generalizing a with
  | nil => simp
  | cons b l2 ih =>
    rw [List.getLast?_cons_cons]
    exact ih b

/-- Folding the per-match map assignments over an accumulator: a key ends
up bound to the value of its last match, and keys without a match keep
their binding from the accumulator. -/
theorem lookupP_foldl (ms : List (Str × Str)) (acc : Params) (k : Str) :
    lookupP k (ms.foldl (fun m kv => mapInsert kv.1 kv.2 m) acc) =
      match (ms.filter (fun kv => kv.1 == k)).getLast? with
      | some kv => some kv.2
      | none => lookupP k acc := by
  induction ms generalizing acc with
  | nil => simp
  | cons kv rest ih =>
    obtain ⟨k2, v2⟩ := kv
    rw [List.foldl_cons, ih (mapInsert k2 v2 acc)]
    by_cases h : (k2 == k) = true
    · have hk : k2 = k := by simpa using h
      subst hk
      rw [List.filter_cons_of_pos (by simpa using h)]
      cases hf : (rest.filter (fun kv => kv.1 == k2)).getLast? with
      | some kv3 =>
        have hne : rest.filter (fun kv => kv.1 == k2) ≠ [] := by
          intro hc
          rw [hc] at hf
          simp at hf
        rw [getLast?_cons_of_ne_nil _ _ hne, hf]
      | none =>
        have hnil : rest.filter (fun kv => kv.1 == k2) = [] := by
          cases hc : rest.filter (fun kv => kv.1 == k2) with
          | nil => rfl
          | cons x xs =>
            rw [hc] at hf
            exact absurd hf (getLast?_cons_ne_none x xs)
        rw [hnil]
        show lookupP k2 (mapInsert k2 v2 acc) = some (k2, v2).2
        exact lookupP_mapInsert_self k2 v2 acc
    · have hk : ¬ k2 = k := by simpa using h
      rw [List.filter_cons_of_neg (by simpa using h)]
      cases hf : (rest.filter (fun kv => kv.1 == k)).getLast? with
      | some kv3 => rfl
      | none => exact lookupP_mapInsert_ne k k2 v2 acc hk

theorem count_eq_one_of_mem_nodup (k : Str) (l : List Str) (hnd : l.Nodup) (hm : k ∈ l) :
    l.count k = 1 := by
  induction l with
  | nil => simp at hm
  | cons a rest ih =>
    simp only [List.nodup_cons] at hnd
    rw [List.count_cons]
    rcases List.mem_cons.mp hm with rfl | hmr
    · have hz : rest.count k = 0 := by
        rw [List.count_eq_zero]
        exact hnd.1
      simp [hz]
    · have hka : (a == k) = false := by
        simp only [beq_eq_false_iff_ne]
        intro hc
        subst hc
        exact hnd.1 hmr
      rw [ih hnd.2 hmr]
      simp [hka]

theorem lookupP_some_mem (k : Str) (m : Params) (v : Str) (h : lookupP k m = some v) :
    k ∈ m.map Prod.fst := by
  induction m with
  | nil => simp [lookupP] at h
  | cons kv rest ih =>
    obtain ⟨k2, v2⟩ := kv
    unfold lookupP at h
    by_cases h2 : (k2 == k) = true
    · have : k2 = k := by simpa using h2
      subst this
      simp
    · rw [if_neg h2] at h
      simp [ih h]

/-- Claim C8: when the query string carries the same parameter name more
than once, the parameter map built by handleClient binds that key exactly
once, to the value of its last occurrence, and its keys are unique. -/
theorem duplicate_query_params_last_wins (query k : Str)
    (hdup : 2 ≤ ((findMatches query).filter (fun kv => kv.1 == k)).length) :
    lookupP k (parseQuery query) =
      (((findMatches query).filter (fun kv => kv.1 == k)).getLast?).map Prod.snd ∧
    ((parseQuery query).map Prod.fst).count k = 1 ∧
    ((parseQuery query).map Prod.fst).Nodup := by
  have hnd : ((parseQuery query).map Prod.fst).Nodup :=
    nodup_keys_foldl (findMatches query) [] (by simp)
  have hlook := lookupP_foldl (findMatches query) [] k
  cases hf : ((findMatches query).filter (fun kv => kv.1 == k)).getLast? with
  | none =>
    exfalso
    have hnil : (findMatches query).filter (fun kv => kv.1 == k) = [] := by
      cases hc : (findMatches query).filter (fun kv => kv.1 == k) with
      | nil => rfl
      | cons x xs =>
        rw [hc] at hf
        exact absurd hf (getLast?_cons_ne_none x xs)
    rw [hnil] at hdup
    simp at hdup
  | some kv =>
    have hlk : lookupP k (parseQuery query) = some kv.2 := by
      rw [parseQuery, hlook, hf]
    refine ⟨by rw [hlk]; rfl, ?_, hnd⟩
    exact count_eq_one_of_mem_nodup k _ hnd (lookupP_some_mem k _ kv.2 hlk)

theorem duplicate_query_params_last_wins_witness :
    2 ≤ ((findMatches (str "a=1&a=2")).filter (fun kv => kv.1 == str "a")).length ∧
    (lookupP (str "a") (parseQuery (str "a=1&a=2")) =
      (((findMatches (str "a=1&a=2")).filter (fun kv => kv.1 == str "a")).getLast?).map Prod.snd ∧
    ((parseQuery (str "a=1&a=2")).map Prod.fst).count (str "a") = 1 ∧
    ((parseQuery (str "a=1&a=2")).map Prod.fst).Nodup) :=
  ⟨by decide, duplicate_query_params_last_wins (str "a=1&a=2") (str "a") (by decide)⟩

/-! ## Claim C9: stop is idempotent -/

/-- Claim C9: calling WebServer::stop twice leaves the server in the same
state as calling it once; the second call changes nothing. -/
theorem stop_idempotent (s : ServerState) :
    WebServer.stop (WebServer.stop s) = WebServer.stop s := rfl

end CyberAsio
